import Mathlib

/-!
Verification of `qgis-to-illustrator-tools`.

The repository has two source files:

* `src/qgis_to_illustrator_tools/qgis/qgis_layout_export.py` — a linear
  script that partitions a QGIS project's layers into raster and non-raster
  layers and, for each raster layer, hides all raster layers, shows the
  current one, shows every non-raster layer, refreshes, and exports the
  layout to `<output_folder>/<name>.png`.
* `src/qgis_to_illustrator_tools/python/notebooks/helpers.py` — a
  `configure_logger` helper that removes all loguru sinks and installs a
  single stdout sink.

The script is embedded as an event trace `scriptEvents` together with an
interpreter `visRun` for the visibility state, a file-system model
`runWrites` for the image writes (overwrite-on-collision), and a model of
`os.makedirs`.  QGIS stores `project.mapLayers()` as a dictionary keyed by
the layer id, so distinct layers of a project have distinct ids; theorems
that need this carry the hypothesis `(project.map Layer.id).Nodup`.
-/

namespace QgisToIllustrator

/-- Values of `QgsMapLayer.type()` that the script compares against. -/
inductive QgsLayerType
  | RasterLayer
  | VectorLayer
  | MeshLayer
  | PluginLayer
deriving DecidableEq

/-- A QGIS map layer as the script sees it: `layer.id()`, `layer.name()`,
`layer.type()`. -/
structure Layer where
  id : String
  name : String
  type : QgsLayerType
deriving DecidableEq

/-- Line 18-22 of `qgis_layout_export.py`: the raster layers of the project,
`layer.type() == QgsMapLayer.RasterLayer`, in project iteration order. -/
def raster_layers (project : List Layer) : List Layer :=
  project.filter (fun l => l.type = QgsLayerType.RasterLayer)

/-- Line 25-29 of `qgis_layout_export.py`: all non-raster layers,
`layer.type() != QgsMapLayer.RasterLayer` (the script calls them
`vector_layers`). -/
def vector_layers (project : List Layer) : List Layer :=
  project.filter (fun l => l.type ≠ QgsLayerType.RasterLayer)

/-- `os.path.join(output_folder, filename)` for a relative filename. -/
def path_join (a b : String) : String := a ++ "/" ++ b

/-- Line 53: `os.path.join(output_folder, f"{raster_layer.name()}.png")`. -/
def out_path (output_folder : String) (r : Layer) : String :=
  path_join output_folder (r.name ++ ".png")

/-- The observable actions the script performs, in order: `os.makedirs`,
`setItemVisibilityChecked` on a layer-tree node, `reloadAllLayers`,
`exportToImage`, and `print`. -/
inductive Event
  | mkdir (dir : String)
  | setVisibility (id : String) (b : Bool)
  | refresh
  | exportImage (path : String)
  | printed (line : String)
deriving DecidableEq

/-- The visibility-change phase of one loop iteration (lines 37-46):
hide every raster layer, show the current raster layer, show every
non-raster layer. -/
def visPhase (rs vs : List Layer) (r : Layer) : List Event :=
  rs.map (fun l => Event.setVisibility l.id false)
    ++ [Event.setVisibility r.id true]
    ++ vs.map (fun l => Event.setVisibility l.id true)

/-- One full iteration of the export loop (lines 36-56): visibility phase,
`project.reloadAllLayers()`, `exporter.exportToImage(out_path, ...)`,
`print(f"Saved: {out_path}")`. -/
def iterEvents (output_folder : String) (rs vs : List Layer) (r : Layer) :
    List Event :=
  visPhase rs vs r
    ++ [Event.refresh, Event.exportImage (out_path output_folder r),
        Event.printed ("Saved: " ++ out_path output_folder r)]

/-- The whole script's event trace (lines 33-58): `os.makedirs` first, then
the loop over `raster_layers`, then the final summary print. -/
def scriptEvents (output_folder : String) (project : List Layer) :
    List Event :=
  Event.mkdir output_folder
    :: ((raster_layers project).flatMap
          (iterEvents output_folder (raster_layers project)
            (vector_layers project))
        ++ [Event.printed "All styled images exported!"])

/-- Visibility state of the layer tree: checked flag per layer id. -/
abbrev Vis := String → Bool

/-- `root.findLayer(i).setItemVisibilityChecked(b)`. -/
def setItemVisibilityChecked (v : Vis) (i : String) (b : Bool) : Vis :=
  fun j => if j = i then b else v j

/-- Effect of one event on the visibility state; only
`setItemVisibilityChecked` changes it. -/
def applyEvent (v : Vis) : Event → Vis
  | Event.setVisibility i b => setItemVisibilityChecked v i b
  | _ => v

/-- Visibility state after running a list of events from state `v`. -/
def visRun (v : Vis) (es : List Event) : Vis := es.foldl applyEvent v

/-- The export paths occurring in a trace, in order. -/
def exportPathsOf (es : List Event) : List String :=
  es.filterMap (fun e =>
    match e with
    | Event.exportImage p => some p
    | _ => none)

/-- The console lines printed by a trace, in order. -/
def printedLines (es : List Event) : List String :=
  es.filterMap (fun e =>
    match e with
    | Event.printed s => some s
    | _ => none)

/-- Writing an image file: if a file already exists at the path it is
overwritten in place, otherwise a new file appears.  The content is the
index of the export that produced it. -/
def writeImage (fs : List (String × Nat)) (p : String) (c : Nat) :
    List (String × Nat) :=
  if fs.any (fun e => e.1 = p) then
    fs.map (fun e => if e.1 = p then (p, c) else e)
  else fs ++ [(p, c)]

/-- The file system after performing a sequence of image exports (paths in
order), starting from an empty output directory. -/
def runWrites (ps : List String) : List (String × Nat) :=
  ps.enum.foldl (fun fs ic => writeImage fs ic.2 ic.1) []

/-- Model of Python `os.makedirs(name, exist_ok)` (line 33 calls it with
`exist_ok=True`): a directory is a list of path components, the state is the
list of existing directories; the call creates the directory and every
missing ancestor, and raises `FileExistsError` only when the target already
exists and `exist_ok` is false. -/
def makedirs (exist_ok : Bool) (st : List (List String)) (d : List String) :
    Except String (List (List String)) :=
  if d ∈ st ∧ exist_ok = false then Except.error "FileExistsError"
  else Except.ok
    ((d.inits.filter (fun p => ¬p.isEmpty)).foldl
      (fun s p => if p ∈ s then s else s ++ [p]) st)

/-- A loguru sink as `helpers.py` configures one: the target stream, the
`colorize` flag and the format string. -/
structure Sink where
  target : String
  colorize : Bool
  format : String
deriving DecidableEq

/-- The loguru logger's sink configuration. -/
structure LoggerState where
  sinks : List Sink
deriving DecidableEq

/-- `logger.remove()` with no arguments: removes every sink. -/
def logger_remove (_s : LoggerState) : LoggerState := ⟨[]⟩

/-- `logger.add(sink, ...)`: appends one sink. -/
def logger_add (s : LoggerState) (k : Sink) : LoggerState := ⟨s.sinks ++ [k]⟩

/-- The format string of `helpers.configure_logger` (lines 11-15). -/
def helpers_format : String :=
  "<green>{time:HH:mm:ss}</green> | "
    ++ "<level>{level}</level> | "
    ++ "<level>{message}</level>"

/-- `helpers.configure_logger` (lines 6-17): `logger.remove()` then
`logger.add(sys.stdout, colorize=True, format=...)`. -/
def configure_logger (s : LoggerState) : LoggerState :=
  logger_add (logger_remove s) ⟨"sys.stdout", true, helpers_format⟩

/-! ### Sample projects used by the witnesses -/

/-- A sample raster layer. -/
def sampleRaster1 : Layer := ⟨"r1", "hillshade", QgsLayerType.RasterLayer⟩

/-- A second sample raster layer. -/
def sampleRaster2 : Layer := ⟨"r2", "satellite", QgsLayerType.RasterLayer⟩

/-- A sample vector layer. -/
def sampleVector : Layer := ⟨"v1", "roads", QgsLayerType.VectorLayer⟩

/-- A sample project with two raster layers and one vector layer. -/
def sampleProject : List Layer := [sampleRaster1, sampleVector, sampleRaster2]

/-- A project whose two raster layers share the display name `dup`. -/
def dupProject : List Layer :=
  [⟨"r1", "dup", QgsLayerType.RasterLayer⟩,
   ⟨"r2", "dup", QgsLayerType.RasterLayer⟩,
   ⟨"v1", "roads", QgsLayerType.VectorLayer⟩]

/-- A project with no raster layer at all. -/
def vecProject : List Layer := [sampleVector]

/-! ### Visibility semantics -/

lemma visRun_append (v : Vis) (es es' : List Event) :
    visRun v (es ++ es') = visRun (visRun v es) es' :=
  List.foldl_append _ _ _ _

lemma visRun_setAll (ls : List Layer) (b : Bool) (v : Vis) (i : String) :
    visRun v (ls.map (fun l => Event.setVisibility l.id b)) i
      = if i ∈ ls.map Layer.id then b else v i := by
  induction ls generalizing v with
  | nil => simp [visRun]
  | cons l ls ih =>
      simp only [List.map_cons, visRun, List.foldl_cons, applyEvent]
      rw [show List.foldl applyEvent (setItemVisibilityChecked v l.id b)
          (ls.map fun l => Event.setVisibility l.id b)
        = visRun (setItemVisibilityChecked v l.id b)
            (ls.map fun l => Event.setVisibility l.id b) from rfl, ih]
      by_cases h1 : i ∈ ls.map Layer.id
      · simp [h1]
      · by_cases h2 : i = l.id <;> simp [h1, h2, setItemVisibilityChecked]

lemma visRun_visPhase (rs vs : List Layer) (r : Layer) (v : Vis) (i : String) :
    visRun v (visPhase rs vs r) i
      = if i ∈ vs.map Layer.id then true
        else if i = r.id then true
        else if i ∈ rs.map Layer.id then false
        else v i := by
  simp only [visPhase, visRun_append]
  rw [show visRun (visRun v (rs.map fun l => Event.setVisibility l.id false))
        [Event.setVisibility r.id true]
      = setItemVisibilityChecked
          (visRun v (rs.map fun l => Event.setVisibility l.id false))
          r.id true from rfl]
  by_cases h1 : i ∈ vs.map Layer.id
  · simp [visRun_setAll, h1]
  · by_cases h2 : i = r.id <;>
      by_cases h3 : i ∈ rs.map Layer.id <;>
        simp [visRun_setAll, setItemVisibilityChecked, h1, h2, h3]

lemma visRun_iterEvents (f : String) (rs vs : List Layer) (r : Layer)
    (v : Vis) :
    visRun v (iterEvents f rs vs r) = visRun v (visPhase rs vs r) := by
  rw [iterEvents, visRun_append]
  rfl

/-! ### Partition of the project's layers -/

lemma mem_raster_layers {project : List Layer} {L : Layer} :
    L ∈ raster_layers project
      ↔ L ∈ project ∧ L.type = QgsLayerType.RasterLayer := by
  simp [raster_layers]

lemma mem_vector_layers {project : List Layer} {L : Layer} :
    L ∈ vector_layers project
      ↔ L ∈ project ∧ L.type ≠ QgsLayerType.RasterLayer := by
  simp [vector_layers]

lemma mem_raster_or_vector {project : List Layer} {L : Layer}
    (h : L ∈ project) :
    L ∈ raster_layers project ∨ L ∈ vector_layers project := by
  by_cases ht : L.type = QgsLayerType.RasterLayer
  · exact Or.inl (mem_raster_layers.mpr ⟨h, ht⟩)
  · exact Or.inr (mem_vector_layers.mpr ⟨h, ht⟩)

lemma id_inj {project : List Layer} {L M : Layer}
    (hnd : (project.map Layer.id).Nodup)
    (hL : L ∈ project) (hM : M ∈ project) (h : L.id = M.id) : L = M :=
  List.inj_on_of_nodup_map hnd hL hM h

/-- Core characterization: after the visibility phase for raster layer `r`,
a project layer is checked exactly when it is `r` itself or not a raster
layer — for any visibility state the phase started from. -/
lemma visPhase_char {project : List Layer} {r L : Layer}
    (hnd : (project.map Layer.id).Nodup)
    (hr : r ∈ raster_layers project) (hL : L ∈ project) (v : Vis) :
    visRun v (visPhase (raster_layers project) (vector_layers project) r) L.id
        = true
      ↔ (L = r ∨ L.type ≠ QgsLayerType.RasterLayer) := by
  rw [visRun_visPhase]
  by_cases h1 : L.id ∈ (vector_layers project).map Layer.id
  · obtain ⟨M, hM, hMid⟩ := List.mem_map.mp h1
    have hLM : M = L :=
      id_inj hnd (mem_vector_layers.mp hM).1 hL hMid
    have : L.type ≠ QgsLayerType.RasterLayer := by
      rw [← hLM]; exact (mem_vector_layers.mp hM).2
    simp [h1, this]
  · have hLrast : L.type = QgsLayerType.RasterLayer := by
      by_contra hc
      exact h1 (List.mem_map.mpr ⟨L, mem_vector_layers.mpr ⟨hL, hc⟩, rfl⟩)
    by_cases h2 : L.id = r.id
    · have : L = r := id_inj hnd hL (mem_raster_layers.mp hr).1 h2
      simp [h1, h2, this]
    · have hLr : L ≠ r := fun he => h2 (by rw [he])
      have h3 : L.id ∈ (raster_layers project).map Layer.id :=
        List.mem_map.mpr ⟨L, mem_raster_layers.mpr ⟨hL, hLrast⟩, rfl⟩
      simp [h1, h2, h3, hLr, hLrast]

/-- C9: the visibility state that one loop iteration reaches on the
project's layers does not depend on the state the iteration started from:
the body unconditionally rewrites every raster layer's flag and every
non-raster layer's flag. -/
theorem iteration_visibility_history_independent
    (f : String) (project : List Layer) (r : Layer)
    (hr : r ∈ raster_layers project) (v1 v2 : Vis) :
    ∀ L ∈ project,
      visRun v1
          (iterEvents f (raster_layers project) (vector_layers project) r)
          L.id
        = visRun v2
            (iterEvents f (raster_layers project) (vector_layers project) r)
            L.id := by
  intro L hL
  rw [visRun_iterEvents, visRun_iterEvents, visRun_visPhase, visRun_visPhase]
  by_cases h1 : L.id ∈ (vector_layers project).map Layer.id
  · simp [h1]
  · by_cases h2 : L.id = r.id
    · simp [h1, h2]
    · have h3 : L.id ∈ (raster_layers project).map Layer.id := by
        rcases mem_raster_or_vector hL with hm | hm
        · exact List.mem_map.mpr ⟨L, hm, rfl⟩
        · exact absurd (List.mem_map.mpr ⟨L, hm, rfl⟩) h1
      simp [h1, h2, h3]

/-- Witness for C9 at a concrete project, raster layer and pair of initial
visibility states. -/
theorem iteration_visibility_history_independent_witness :
    sampleRaster1 ∈ raster_layers sampleProject
    ∧ ∀ L ∈ sampleProject,
        visRun (fun _ => false)
            (iterEvents "out" (raster_layers sampleProject)
              (vector_layers sampleProject) sampleRaster1)
            L.id
          = visRun (fun _ => true)
              (iterEvents "out" (raster_layers sampleProject)
                (vector_layers sampleProject) sampleRaster1)
              L.id :=
  ⟨by decide,
   iteration_visibility_history_independent "out" sampleProject sampleRaster1
     (by decide) (fun _ => false) (fun _ => true)⟩

/-- C7: in every loop iteration, all visibility changes come first, then the
refresh, and only then the export (followed by the `Saved:` print): the
iteration trace decomposes as a block of pure visibility events followed by
`refresh`, `exportImage`, `printed`. -/
theorem refresh_between_visibility_and_export
    (f : String) (project : List Layer) (r : Layer)
    (hr : r ∈ raster_layers project) :
    ∃ P, iterEvents f (raster_layers project) (vector_layers project) r
        = P ++ [Event.refresh, Event.exportImage (out_path f r),
                Event.printed ("Saved: " ++ out_path f r)]
      ∧ ∀ e ∈ P, ∃ i b, e = Event.setVisibility i b := by
  refine ⟨visPhase (raster_layers project) (vector_layers project) r,
    rfl, ?_⟩
  intro e he
  simp only [visPhase, List.mem_append, List.mem_map, List.mem_singleton]
    at he
  rcases he with (⟨l, _, rfl⟩ | rfl) | ⟨l, _, rfl⟩
  · exact ⟨l.id, false, rfl⟩
  · exact ⟨r.id, true, rfl⟩
  · exact ⟨l.id, true, rfl⟩

/-- Witness for C7 at a concrete project and raster layer. -/
theorem refresh_between_visibility_and_export_witness :
    sampleRaster2 ∈ raster_layers sampleProject
    ∧ ∃ P, iterEvents "out" (raster_layers sampleProject)
            (vector_layers sampleProject) sampleRaster2
          = P ++ [Event.refresh,
                  Event.exportImage (out_path "out" sampleRaster2),
                  Event.printed ("Saved: " ++ out_path "out" sampleRaster2)]
        ∧ ∀ e ∈ P, ∃ i b, e = Event.setVisibility i b :=
  ⟨by decide,
   refresh_between_visibility_and_export "out" sampleProject sampleRaster2
     (by decide)⟩

/-! ### Export calls and console output -/

lemma exportPathsOf_append (a b : List Event) :
    exportPathsOf (a ++ b) = exportPathsOf a ++ exportPathsOf b :=
  List.filterMap_append _ _ _

lemma exportPathsOf_setAll (ls : List Layer) (b : Bool) :
    exportPathsOf (ls.map (fun l => Event.setVisibility l.id b)) = [] := by
  induction ls with
  | nil => rfl
  | cons l ls ih =>
      rw [List.map_cons]
      rw [show exportPathsOf
            (Event.setVisibility l.id b
              :: ls.map fun l => Event.setVisibility l.id b)
          = exportPathsOf (ls.map fun l => Event.setVisibility l.id b)
          from rfl]
      exact ih

lemma exportPathsOf_iterEvents (f : String) (rs vs : List Layer)
    (r : Layer) :
    exportPathsOf (iterEvents f rs vs r) = [out_path f r] := by
  rw [iterEvents, visPhase, exportPathsOf_append, exportPathsOf_append,
    exportPathsOf_append, exportPathsOf_setAll, exportPathsOf_setAll]
  simp [exportPathsOf]

lemma exportPathsOf_flatMap (f : String) (rs vs : List Layer)
    (rs' : List Layer) :
    exportPathsOf (rs'.flatMap (iterEvents f rs vs))
      = rs'.map (out_path f) := by
  induction rs' with
  | nil => simp [exportPathsOf]
  | cons r rs' ih =>
      rw [List.flatMap_cons, exportPathsOf_append, exportPathsOf_iterEvents,
        ih, List.map_cons]
      rfl

lemma exportPaths_scriptEvents (f : String) (project : List Layer) :
    exportPathsOf (scriptEvents f project)
      = (raster_layers project).map (out_path f) := by
  rw [show scriptEvents f project
      = [Event.mkdir f]
        ++ ((raster_layers project).flatMap
              (iterEvents f (raster_layers project)
                (vector_layers project))
            ++ [Event.printed "All styled images exported!"]) from rfl]
  rw [exportPathsOf_append, exportPathsOf_append, exportPathsOf_flatMap]
  simp [exportPathsOf]

lemma printedLines_append (a b : List Event) :
    printedLines (a ++ b) = printedLines a ++ printedLines b :=
  List.filterMap_append _ _ _

/-- C2: a run performs exactly one export call per raster layer, in
iteration order, and the export for raster layer `R` targets
`<output_folder>/<R.name>.png`. -/
theorem one_export_per_raster (f : String) (project : List Layer) :
    exportPathsOf (scriptEvents f project)
        = (raster_layers project).map (out_path f)
      ∧ (exportPathsOf (scriptEvents f project)).length
        = (raster_layers project).length := by
  refine ⟨exportPaths_scriptEvents f project, ?_⟩
  rw [exportPaths_scriptEvents, List.length_map]

/-- C5: with no raster layers there is no export call, no `Saved:` line,
and the only console output is the single final summary line. -/
theorem empty_rasters_no_exports (f : String) (project : List Layer)
    (h : raster_layers project = []) :
    exportPathsOf (scriptEvents f project) = []
      ∧ printedLines (scriptEvents f project)
        = ["All styled images exported!"] := by
  constructor
  · rw [exportPaths_scriptEvents, h]; rfl
  · rw [show scriptEvents f project
        = [Event.mkdir f]
          ++ ((raster_layers project).flatMap
                (iterEvents f (raster_layers project)
                  (vector_layers project))
              ++ [Event.printed "All styled images exported!"]) from rfl, h]
    rfl

/-- Witness for C5 at a concrete all-vector project. -/
theorem empty_rasters_no_exports_witness :
    raster_layers vecProject = []
    ∧ exportPathsOf (scriptEvents "out" vecProject) = []
    ∧ printedLines (scriptEvents "out" vecProject)
      = ["All styled images exported!"] :=
  ⟨by decide,
   (empty_rasters_no_exports "out" vecProject (by decide)).1,
   (empty_rasters_no_exports "out" vecProject (by decide)).2⟩

/-- C10: `configure_logger` removes every sink and installs exactly one
stdout sink, so a second call leaves the logger exactly as one call does:
one sink with the same format. -/
theorem configure_logger_idempotent :
    ∀ s : LoggerState,
      configure_logger (configure_logger s) = configure_logger s
      ∧ (configure_logger s).sinks.length = 1
      ∧ configure_logger s
        = ⟨[⟨"sys.stdout", true, helpers_format⟩]⟩ :=
  fun _ => ⟨rfl, rfl, rfl⟩

/-! ### C4: vector layers are never hidden -/

lemma mem_visPhase {rs vs : List Layer} {r : Layer} {e : Event}
    (h : e ∈ visPhase rs vs r) :
    (∃ l ∈ rs, e = Event.setVisibility l.id false)
      ∨ e = Event.setVisibility r.id true
      ∨ ∃ l ∈ vs, e = Event.setVisibility l.id true := by
  rw [visPhase] at h
  rcases List.mem_append.mp h with h | h
  · rcases List.mem_append.mp h with h | h
    · obtain ⟨l, hl, he⟩ := List.mem_map.mp h
      exact Or.inl ⟨l, hl, he.symm⟩
    · exact Or.inr (Or.inl (List.mem_singleton.mp h))
  · obtain ⟨l, hl, he⟩ := List.mem_map.mp h
    exact Or.inr (Or.inr ⟨l, hl, he.symm⟩)

lemma mem_iterEvents {f : String} {rs vs : List Layer} {r : Layer}
    {e : Event} (h : e ∈ iterEvents f rs vs r) :
    e ∈ visPhase rs vs r
      ∨ e = Event.refresh
      ∨ e = Event.exportImage (out_path f r)
      ∨ e = Event.printed ("Saved: " ++ out_path f r) := by
  rw [iterEvents] at h
  rcases List.mem_append.mp h with h | h
  · exact Or.inl h
  · simp only [List.mem_cons, List.mem_singleton] at h
    tauto

lemma mem_scriptEvents {f : String} {project : List Layer} {e : Event}
    (h : e ∈ scriptEvents f project) :
    e = Event.mkdir f
      ∨ (∃ r ∈ raster_layers project,
          e ∈ iterEvents f (raster_layers project) (vector_layers project) r)
      ∨ e = Event.printed "All styled images exported!" := by
  rw [scriptEvents] at h
  rcases List.mem_cons.mp h with h | h
  · exact Or.inl h
  · rcases List.mem_append.mp h with h | h
    · exact Or.inr (Or.inl (List.mem_flatMap.mp h))
    · exact Or.inr (Or.inr (List.mem_singleton.mp h))

/-- The only events that uncheck a layer are the hide-all steps, and those
target raster layer ids. -/
lemma setVisibility_false_mem {f : String} {project : List Layer}
    {i : String}
    (h : Event.setVisibility i false ∈ scriptEvents f project) :
    i ∈ (raster_layers project).map Layer.id := by
  rcases mem_scriptEvents h with h | ⟨r, _, he⟩ | h
  · simp at h
  · rcases mem_iterEvents he with hv | h2 | h2 | h2
    · rcases mem_visPhase hv with ⟨l, hl, he2⟩ | he2 | ⟨l, _, he2⟩
      · simp only [Event.setVisibility.injEq] at he2
        exact List.mem_map.mpr ⟨l, hl, he2.1.symm⟩
      · simp at he2
      · simp at he2
    · simp at h2
    · simp at h2
    · simp at h2
  · simp at h

/-- Running events that never uncheck id `i` preserves a checked flag. -/
lemma visRun_preserve_true {i : String} :
    ∀ es : List Event, (∀ e ∈ es, e ≠ Event.setVisibility i false) →
      ∀ v : Vis, v i = true → visRun v es i = true := by
  intro es
  induction es with
  | nil => intro _ v hv; exact hv
  | cons e es ih =>
      intro h v hv
      have h1 := h e (List.mem_cons_self _ _)
      have h2 : ∀ e' ∈ es, e' ≠ Event.setVisibility i false :=
        fun e' he' => h e' (List.mem_cons_of_mem _ he')
      rw [show visRun v (e :: es) = visRun (applyEvent v e) es from rfl]
      apply ih h2
      cases e with
      | setVisibility j b =>
          by_cases hji : i = j
          · subst hji
            cases b with
            | false => exact absurd rfl h1
            | true => simp [applyEvent, setItemVisibilityChecked]
          · simpa [applyEvent, setItemVisibilityChecked, hji] using hv
      | mkdir d => exact hv
      | refresh => exact hv
      | exportImage p => exact hv
      | printed s => exact hv

/-- C4: the loop never unchecks a non-raster layer: no event of the run
sets a vector layer's flag to false, and consequently a vector layer that
is visible at the start is visible at every intermediate point of the
run. -/
theorem vector_never_hidden (f : String) (project : List Layer) (V : Layer)
    (hnd : (project.map Layer.id).Nodup)
    (hV : V ∈ vector_layers project) :
    (∀ e ∈ scriptEvents f project, e ≠ Event.setVisibility V.id false)
      ∧ ∀ v0 : Vis, v0 V.id = true →
          ∀ n, visRun v0 ((scriptEvents f project).take n) V.id = true := by
  have hnot : ∀ e ∈ scriptEvents f project,
      e ≠ Event.setVisibility V.id false := by
    intro e he heq
    subst heq
    have hid := setVisibility_false_mem he
    obtain ⟨M, hM, hMid⟩ := List.mem_map.mp hid
    have : M = V :=
      id_inj hnd (mem_raster_layers.mp hM).1 (mem_vector_layers.mp hV).1 hMid
    subst this
    exact (mem_vector_layers.mp hV).2 (mem_raster_layers.mp hM).2
  refine ⟨hnot, fun v0 hv0 n => ?_⟩
  exact visRun_preserve_true _
    (fun e he => hnot e (List.take_subset n _ he)) v0 hv0

/-- Witness for C4 at a concrete project and vector layer. -/
theorem vector_never_hidden_witness :
    (sampleProject.map Layer.id).Nodup
    ∧ sampleVector ∈ vector_layers sampleProject
    ∧ ((∀ e ∈ scriptEvents "out" sampleProject,
          e ≠ Event.setVisibility sampleVector.id false)
        ∧ ∀ v0 : Vis, v0 sampleVector.id = true →
            ∀ n, visRun v0 ((scriptEvents "out" sampleProject).take n)
              sampleVector.id = true) :=
  ⟨by decide, by decide,
   vector_never_hidden "out" sampleProject sampleVector
     (by decide) (by decide)⟩

/-! ### C1: visibility invariant at each export step -/

/-- The trace prefix of the run up to (but not including) the `k`-th export
call: `os.makedirs`, the first `k` whole iterations, and the `k`-th
iteration's visibility phase and refresh. -/
def exportStepTrace (f : String) (project : List Layer) (k : Nat) :
    List Event :=
  Event.mkdir f
    :: (((raster_layers project).take k).flatMap
          (iterEvents f (raster_layers project) (vector_layers project))
        ++ ((raster_layers project).drop k).head?.elim []
            (fun r =>
              visPhase (raster_layers project) (vector_layers project) r
                ++ [Event.refresh]))

/-- `exportStepTrace` is honest: for `k < len`, the script's trace is the
`k`-th export-step prefix, then the `k`-th export event, then the rest of
the run. -/
lemma scriptEvents_eq_exportStepTrace (f : String) (project : List Layer)
    (k : Nat) (hk : k < (raster_layers project).length) :
    scriptEvents f project
      = exportStepTrace f project k
        ++ Event.exportImage (out_path f ((raster_layers project).get ⟨k, hk⟩))
          :: Event.printed
              ("Saved: " ++ out_path f ((raster_layers project).get ⟨k, hk⟩))
          :: (((raster_layers project).drop (k + 1)).flatMap
                (iterEvents f (raster_layers project)
                  (vector_layers project))
              ++ [Event.printed "All styled images exported!"]) := by
  have hdrop : (raster_layers project).drop k
      = (raster_layers project).get ⟨k, hk⟩
          :: (raster_layers project).drop (k + 1) := by
    rw [List.drop_eq_getElem_cons hk, List.get_eq_getElem]
  have key : (raster_layers project).flatMap
        (iterEvents f (raster_layers project) (vector_layers project))
      = ((raster_layers project).take k).flatMap
          (iterEvents f (raster_layers project) (vector_layers project))
        ++ (iterEvents f (raster_layers project) (vector_layers project)
              ((raster_layers project).get ⟨k, hk⟩)
            ++ ((raster_layers project).drop (k + 1)).flatMap
                (iterEvents f (raster_layers project)
                  (vector_layers project))) := by
    conv_lhs =>
      rw [← List.take_append_drop k (raster_layers project), hdrop]
    rw [List.flatMap_append, List.flatMap_cons, ← hdrop,
      List.take_append_drop]
  rw [scriptEvents, key, exportStepTrace, hdrop]
  simp only [List.head?_cons, Option.elim, iterEvents, List.cons_append,
    List.append_assoc, List.nil_append]

/-- C1: at the export step of raster layer `R`'s iteration — after the
hide-all, show-current and show-vectors phase and the refresh — a project
layer is visible exactly when it is `R` or a non-raster layer; in
particular every other raster layer is hidden. -/
theorem export_step_visible_set (f : String) (project : List Layer)
    (v0 : Vis) (hnd : (project.map Layer.id).Nodup) (k : Nat)
    (hk : k < (raster_layers project).length) :
    ∀ L ∈ project,
      (visRun v0 (exportStepTrace f project k) L.id = true
        ↔ (L = (raster_layers project).get ⟨k, hk⟩
            ∨ L.type ≠ QgsLayerType.RasterLayer)) := by
  intro L hL
  have hr : (raster_layers project).get ⟨k, hk⟩ ∈ raster_layers project :=
    List.get_mem _ _ _
  have hdrop : (raster_layers project).drop k
      = (raster_layers project).get ⟨k, hk⟩
          :: (raster_layers project).drop (k + 1) := by
    rw [List.drop_eq_getElem_cons hk, List.get_eq_getElem]
  rw [exportStepTrace, hdrop]
  rw [show (((raster_layers project).get ⟨k, hk⟩
        :: (raster_layers project).drop (k + 1)).head?).elim []
          (fun r =>
            visPhase (raster_layers project) (vector_layers project) r
              ++ [Event.refresh])
      = visPhase (raster_layers project) (vector_layers project)
          ((raster_layers project).get ⟨k, hk⟩)
          ++ [Event.refresh] from rfl]
  rw [show visRun v0
        (Event.mkdir f
          :: (((raster_layers project).take k).flatMap
                (iterEvents f (raster_layers project)
                  (vector_layers project))
              ++ (visPhase (raster_layers project) (vector_layers project)
                    ((raster_layers project).get ⟨k, hk⟩)
                  ++ [Event.refresh])))
      = visRun v0
          (((raster_layers project).take k).flatMap
              (iterEvents f (raster_layers project)
                (vector_layers project))
            ++ (visPhase (raster_layers project) (vector_layers project)
                  ((raster_layers project).get ⟨k, hk⟩)
                ++ [Event.refresh])) from rfl]
  rw [visRun_append, visRun_append]
  rw [show visRun
        (visRun
          (visRun v0
            (((raster_layers project).take k).flatMap
              (iterEvents f (raster_layers project)
                (vector_layers project))))
          (visPhase (raster_layers project) (vector_layers project)
            ((raster_layers project).get ⟨k, hk⟩)))
        [Event.refresh]
      = visRun
          (visRun v0
            (((raster_layers project).take k).flatMap
              (iterEvents f (raster_layers project)
                (vector_layers project))))
          (visPhase (raster_layers project) (vector_layers project)
            ((raster_layers project).get ⟨k, hk⟩)) from rfl]
  exact visPhase_char hnd hr hL _

/-- Witness for C1 at a concrete project, initial state and iteration. -/
theorem export_step_visible_set_witness :
    (sampleProject.map Layer.id).Nodup
    ∧ 0 < (raster_layers sampleProject).length
    ∧ ∀ L ∈ sampleProject,
        (visRun (fun _ => false) (exportStepTrace "out" sampleProject 0)
            L.id = true
          ↔ (L = (raster_layers sampleProject).get ⟨0, by decide⟩
              ∨ L.type ≠ QgsLayerType.RasterLayer)) :=
  ⟨by decide, by decide,
   export_step_visible_set "out" sampleProject (fun _ => false)
     (by decide) 0 (by decide)⟩

/-! ### C8: the final visibility state is not restored -/

/-- C8: after the whole run, for a non-empty raster list, a project layer
is visible exactly when it is the last raster layer in iteration order or a
non-raster layer — whatever the visibility state `v0` the project was
loaded with. -/
theorem final_visibility_not_restored (f : String) (project : List Layer)
    (v0 : Vis) (hnd : (project.map Layer.id).Nodup)
    (hne : raster_layers project ≠ []) :
    ∀ L ∈ project,
      (visRun v0 (scriptEvents f project) L.id = true
        ↔ (L = (raster_layers project).getLast hne
            ∨ L.type ≠ QgsLayerType.RasterLayer)) := by
  intro L hL
  have hlast : (raster_layers project).getLast hne ∈ raster_layers project :=
    List.getLast_mem hne
  have hsplit : raster_layers project
      = (raster_layers project).dropLast
        ++ [(raster_layers project).getLast hne] :=
    (List.dropLast_append_getLast hne).symm
  have key : (raster_layers project).flatMap
        (iterEvents f (raster_layers project) (vector_layers project))
      = ((raster_layers project).dropLast).flatMap
          (iterEvents f (raster_layers project) (vector_layers project))
        ++ iterEvents f (raster_layers project) (vector_layers project)
            ((raster_layers project).getLast hne) := by
    conv_lhs => rw [hsplit]
    rw [List.flatMap_append, ← hsplit, List.flatMap_cons, List.flatMap_nil,
      List.append_nil]
  rw [scriptEvents, key]
  rw [show visRun v0
        (Event.mkdir f
          :: ((((raster_layers project).dropLast).flatMap
                  (iterEvents f (raster_layers project)
                    (vector_layers project))
                ++ iterEvents f (raster_layers project)
                    (vector_layers project)
                    ((raster_layers project).getLast hne))
              ++ [Event.printed "All styled images exported!"]))
      = visRun v0
          ((((raster_layers project).dropLast).flatMap
              (iterEvents f (raster_layers project)
                (vector_layers project))
            ++ iterEvents f (raster_layers project) (vector_layers project)
                ((raster_layers project).getLast hne))
            ++ [Event.printed "All styled images exported!"]) from rfl]
  rw [visRun_append, visRun_append]
  rw [show ∀ w : Vis, visRun w [Event.printed "All styled images exported!"]
      = w from fun _ => rfl]
  rw [visRun_iterEvents]
  exact visPhase_char hnd hlast hL _

/-- Witness for C8 at a concrete project and initial state. -/
theorem final_visibility_not_restored_witness :
    (sampleProject.map Layer.id).Nodup
    ∧ raster_layers sampleProject ≠ []
    ∧ ∀ L ∈ sampleProject,
        (visRun (fun _ => true) (scriptEvents "out" sampleProject)
            L.id = true
          ↔ (L = (raster_layers sampleProject).getLast (by decide)
              ∨ L.type ≠ QgsLayerType.RasterLayer)) :=
  ⟨by decide, by decide,
   final_visibility_not_restored "out" sampleProject (fun _ => true)
     (by decide) (by decide)⟩

/-! ### C3: name collisions overwrite -/

lemma runWrites_concat (ps : List String) (q : String) :
    runWrites (ps ++ [q]) = writeImage (runWrites ps) q ps.length := by
  rw [runWrites, runWrites, List.enum_append, List.foldl_append]
  rfl

lemma writeImage_map_fst (fs : List (String × Nat)) (q : String) (c : Nat) :
    (writeImage fs q c).map Prod.fst
      = if fs.any (fun e => e.1 = q) then fs.map Prod.fst
        else fs.map Prod.fst ++ [q] := by
  rw [writeImage]
  by_cases h : fs.any (fun e => e.1 = q)
  · rw [if_pos h, if_pos h, List.map_map]
    refine List.map_congr_left ?_
    intro e _
    by_cases he : e.1 = q <;> simp [he]
  · rw [if_neg h, if_neg h, List.map_append]
    rfl

lemma any_fst_runWrites (ps : List String) (q : String) :
    (runWrites ps).any (fun e => e.1 = q) = true ↔ q ∈ ps := by
  induction ps using List.reverseRecOn with
  | nil => simp [runWrites]
  | append_singleton ps p ih =>
      rw [runWrites_concat, writeImage]
      by_cases h : (runWrites ps).any (fun e => e.1 = p)
      · rw [if_pos h]
        constructor
        · intro hq
          obtain ⟨e, he, heq⟩ := List.any_eq_true.mp hq
          obtain ⟨e', he', heq'⟩ := List.mem_map.mp he
          by_cases hep : e'.1 = p
          · subst heq'
            simp only [if_pos hep] at heq
            have : p = q := by simpa using heq
            exact List.mem_append.mpr (Or.inr (this ▸ List.mem_singleton.mpr rfl))
          · subst heq'
            simp only [if_neg hep] at heq
            exact List.mem_append.mpr
              (Or.inl (ih.mp (List.any_eq_true.mpr ⟨e', he', heq⟩)))
        · intro hq
          rcases List.mem_append.mp hq with hq | hq
          · obtain ⟨e, he, heq⟩ := List.any_eq_true.mp (ih.mpr hq)
            by_cases hep : e.1 = p
            · refine List.any_eq_true.mpr
                ⟨(p, ps.length), List.mem_map.mpr ⟨e, he, by simp [hep]⟩, ?_⟩
              have : e.1 = q := of_decide_eq_true heq
              simp [← this, hep]
            · exact List.any_eq_true.mpr
                ⟨e, List.mem_map.mpr ⟨e, he, by simp [hep]⟩, heq⟩
          · have : q = p := List.mem_singleton.mp hq
            subst this
            obtain ⟨e, he, heq⟩ := List.any_eq_true.mp h
            refine List.any_eq_true.mpr
              ⟨(q, ps.length), List.mem_map.mpr
                ⟨e, he, by simp [of_decide_eq_true heq]⟩, by simp⟩
      · rw [if_neg h]
        rw [List.any_append]
        constructor
        · intro hq
          rcases Bool.or_eq_true_iff.mp hq with hq | hq
          · exact List.mem_append.mpr (Or.inl (ih.mp hq))
          · have : p = q := by simpa using hq
            exact List.mem_append.mpr (Or.inr (this ▸ List.mem_singleton.mpr rfl))
        · intro hq
          rcases List.mem_append.mp hq with hq | hq
          · exact Bool.or_eq_true_iff.mpr (Or.inl (ih.mpr hq))
          · have : q = p := List.mem_singleton.mp hq
            exact Bool.or_eq_true_iff.mpr (Or.inr (by simp [this]))

/-- Each exported path names exactly one file in the final output
directory: a later export to an existing path overwrites in place. -/
lemma count_runWrites (ps : List String) (p : String) :
    ((runWrites ps).filter (fun e => e.1 = p)).length
      = if p ∈ ps then 1 else 0 := by
  induction ps using List.reverseRecOn with
  | nil => simp [runWrites]
  | append_singleton ps q ih =>
      rw [runWrites_concat, writeImage]
      by_cases h : (runWrites ps).any (fun e => e.1 = q)
      · rw [if_pos h]
        have hq : q ∈ ps := (any_fst_runWrites ps q).mp h
        rw [List.filter_map, List.length_map]
        have hcong : ∀ e ∈ runWrites ps,
            ((fun e : String × Nat => decide (e.1 = p))
              ∘ (fun e : String × Nat =>
                  if e.1 = q then (q, ps.length) else e)) e
              = decide (e.1 = p) := by
          intro e _
          by_cases he : e.1 = q <;> simp [he]
        rw [List.filter_congr hcong, ih]
        by_cases hpq : p = q
        · subst hpq; simp [hq]
        · simp [List.mem_append, hpq]
      · rw [if_neg h]
        have hq : q ∉ ps := fun hqp => h ((any_fst_runWrites ps q).mpr hqp)
        rw [List.filter_append, List.length_append, ih]
        by_cases hpq : p = q
        · subst hpq; simp [hq]
        · have hqp : ¬q = p := fun h' => hpq h'.symm
          simp [List.mem_append, hpq, List.filter, hqp]

/-- The file at an exported path holds the content of the last export that
targeted that path: export `j` wins when no later export collides. -/
lemma runWrites_mem_last (ps : List String) (p : String) :
    ∀ j (hj : j < ps.length), ps.get ⟨j, hj⟩ = p →
      (∀ m (hm : m < ps.length), j < m → ps.get ⟨m, hm⟩ ≠ p) →
      (p, j) ∈ runWrites ps := by
  induction ps using List.reverseRecOn with
  | nil => intro j hj; exact absurd hj (by simp)
  | append_singleton ps q ih =>
      intro j hj hget hlast
      have hlen : (ps ++ [q]).length = ps.length + 1 := by simp
      rw [runWrites_concat]
      by_cases hjlen : j = ps.length
      · subst hjlen
        have hq : q = p := by
          rw [List.get_eq_getElem] at hget
          rw [← hget]
          exact (List.getElem_concat_length ps q ps.length rfl _).symm
        subst hq
        rw [writeImage]
        by_cases h : (runWrites ps).any (fun e => e.1 = q)
        · rw [if_pos h]
          obtain ⟨e, he, heq⟩ := List.any_eq_true.mp h
          refine List.mem_map.mpr ⟨e, he, ?_⟩
          simp [of_decide_eq_true heq]
        · rw [if_neg h]
          exact List.mem_append.mpr (Or.inr (List.mem_singleton.mpr rfl))
      · have hjlt : j < ps.length := by
          rw [hlen] at hj; omega
        have hget' : ps.get ⟨j, hjlt⟩ = p := by
          rw [List.get_eq_getElem] at hget ⊢
          rw [← hget]
          exact (List.getElem_append_left hjlt).symm
        have hpq : p ≠ q := by
          have hm := hlast ps.length (by omega) hjlt
          rw [List.get_eq_getElem] at hm
          rw [List.getElem_concat_length ps q ps.length rfl] at hm
          exact fun h' => hm h'.symm
        have hlast' : ∀ m (hm : m < ps.length), j < m →
            ps.get ⟨m, hm⟩ ≠ p := by
          intro m hm hjm
          have := hlast m (by omega) hjm
          rw [List.get_eq_getElem] at this ⊢
          rw [List.getElem_append_left hm] at this
          exact this
        have hmem := ih j hjlt hget' hlast'
        rw [writeImage]
        by_cases h : (runWrites ps).any (fun e => e.1 = q)
        · rw [if_pos h]
          refine List.mem_map.mpr ⟨(p, j), hmem, ?_⟩
          simp [hpq]
        · rw [if_neg h]
          exact List.mem_append.mpr (Or.inl hmem)

/-- `out_path` determines the layer name: equal output paths for the same
output folder force equal display names. -/
lemma out_path_name_inj {f : String} {a b : Layer}
    (h : out_path f a = out_path f b) : a.name = b.name := by
  rw [out_path, out_path, path_join, path_join] at h
  have hd := congrArg String.data h
  rw [String.data_append, String.data_append, String.data_append,
    String.data_append] at hd
  exact String.ext
    (List.append_cancel_right (List.append_cancel_left hd))

/-- C3: when the raster layers at positions `i < j` share a display name
and no other raster layer uses it, the run leaves exactly one file at
`<output_folder>/<name>.png` and its content is the result of the later
(`j`-th) export: the second export overwrites the first. -/
theorem duplicate_name_overwrite (f : String) (project : List Layer)
    (i j : Nat) (hij : i < j) (hj : j < (raster_layers project).length)
    (hname : ((raster_layers project).get ⟨i, Nat.lt_trans hij hj⟩).name
      = ((raster_layers project).get ⟨j, hj⟩).name)
    (hothers : ∀ k (hk : k < (raster_layers project).length),
      k ≠ i → k ≠ j →
      ((raster_layers project).get ⟨k, hk⟩).name
        ≠ ((raster_layers project).get ⟨j, hj⟩).name) :
    ((runWrites (exportPathsOf (scriptEvents f project))).filter
          (fun e =>
            e.1 = out_path f ((raster_layers project).get ⟨j, hj⟩))).length
        = 1
      ∧ (out_path f ((raster_layers project).get ⟨j, hj⟩), j)
          ∈ runWrites (exportPathsOf (scriptEvents f project)) := by
  rw [exportPaths_scriptEvents]
  have hmem : out_path f ((raster_layers project).get ⟨j, hj⟩)
      ∈ (raster_layers project).map (out_path f) :=
    List.mem_map.mpr ⟨_, List.get_mem _ _ _, rfl⟩
  constructor
  · rw [count_runWrites, if_pos hmem]
  · have hj' : j < ((raster_layers project).map (out_path f)).length := by
      rw [List.length_map]; exact hj
    have hget : ((raster_layers project).map (out_path f)).get ⟨j, hj'⟩
        = out_path f ((raster_layers project).get ⟨j, hj⟩) := by
      simp [List.get_eq_getElem, List.getElem_map]
    have hlast : ∀ m
        (hm : m < ((raster_layers project).map (out_path f)).length),
        j < m →
        ((raster_layers project).map (out_path f)).get ⟨m, hm⟩
          ≠ out_path f ((raster_layers project).get ⟨j, hj⟩) := by
      intro m hm hjm
      have hm' : m < (raster_layers project).length := by
        rw [List.length_map] at hm; exact hm
      rw [List.get_eq_getElem, List.getElem_map]
      intro heq
      have hnames : ((raster_layers project).get ⟨m, hm'⟩).name
          = ((raster_layers project).get ⟨j, hj⟩).name := by
        simpa [List.get_eq_getElem] using out_path_name_inj heq
      exact hothers m hm' (by omega) (by omega) hnames
    exact runWrites_mem_last _ _ j hj' hget hlast

/-- Witness for C3 at a concrete project whose two raster layers are both
named `dup`. -/
theorem duplicate_name_overwrite_witness :
    (0 : Nat) < 1
    ∧ 1 < (raster_layers dupProject).length
    ∧ ((raster_layers dupProject).get ⟨0, by decide⟩).name
      = ((raster_layers dupProject).get ⟨1, by decide⟩).name
    ∧ (((runWrites (exportPathsOf (scriptEvents "out" dupProject))).filter
          (fun e =>
            e.1 = out_path "out"
              ((raster_layers dupProject).get ⟨1, by decide⟩))).length
        = 1
      ∧ (out_path "out" ((raster_layers dupProject).get ⟨1, by decide⟩), 1)
          ∈ runWrites (exportPathsOf (scriptEvents "out" dupProject))) :=
  ⟨by decide, by decide, by decide,
   duplicate_name_overwrite "out" dupProject 0 1 (by decide) (by decide)
     (by decide) (by decide)⟩

/-! ### C6: output directory creation -/

lemma foldl_addDir_mem (ds : List (List String)) (st : List (List String))
    (p : List String) (h : p ∈ ds ∨ p ∈ st) :
    p ∈ ds.foldl (fun s q => if q ∈ s then s else s ++ [q]) st := by
  induction ds generalizing st with
  | nil =>
      rcases h with h | h
      · exact absurd h (List.not_mem_nil p)
      · exact h
  | cons d ds ih =>
      apply ih
      rcases h with h | h
      · rcases List.mem_cons.mp h with h | h
        · subst h
          right
          by_cases hd : p ∈ st <;> simp [hd]
        · exact Or.inl h
      · right
        by_cases hd : d ∈ st <;> simp [hd, h]

lemma self_mem_inits {α : Type} (l : List α) : l ∈ l.inits := by
  induction l with
  | nil => simp
  | cons a l ih =>
      rw [List.inits_cons]
      exact List.mem_cons_of_mem _ (List.mem_map.mpr ⟨l, ih, rfl⟩)

/-- C6: the script's `os.makedirs(output_folder, exist_ok=True)` call is
the first event of the run — strictly before every export — and with
`exist_ok=True` it creates the directory with all missing ancestors and
never fails, in particular not when the directory already exists. -/
theorem makedirs_before_any_export (f : String) (project : List Layer)
    (st : List (List String)) (d : List String) (hd : d ≠ []) :
    (scriptEvents f project).head? = some (Event.mkdir f)
    ∧ (∀ (n : Nat) (p : String),
        (scriptEvents f project)[n]? = some (Event.exportImage p) →
        ∃ m : Nat, m < n
          ∧ (scriptEvents f project)[m]? = some (Event.mkdir f))
    ∧ (∃ st', makedirs true st d = Except.ok st'
        ∧ d ∈ st' ∧ ∀ p ∈ d.inits, p ≠ [] → p ∈ st')
    ∧ ∀ st2 : List (List String), (makedirs true st2 d).isOk = true := by
  refine ⟨rfl, ?_, ?_, ?_⟩
  · intro n p hn
    have h0 : (scriptEvents f project)[0]? = some (Event.mkdir f) := by
      rw [scriptEvents]
      simp
    refine ⟨0, ?_, h0⟩
    cases n with
    | zero => rw [h0] at hn; simp at hn
    | succ n => omega
  · have hok : makedirs true st d
        = Except.ok ((d.inits.filter (fun p => ¬p.isEmpty)).foldl
            (fun s q => if q ∈ s then s else s ++ [q]) st) := by
      rw [makedirs]
      simp
    refine ⟨_, hok, ?_, ?_⟩
    · apply foldl_addDir_mem
      left
      refine List.mem_filter.mpr ⟨self_mem_inits d, ?_⟩
      simpa [List.isEmpty_iff] using hd
    · intro p hp hpne
      apply foldl_addDir_mem
      left
      refine List.mem_filter.mpr ⟨hp, ?_⟩
      simpa [List.isEmpty_iff] using hpne
  · intro st2
    rw [makedirs]
    simp [Except.isOk, Except.toBool]

/-- Witness for C6 at a concrete project, directory state and directory. -/
theorem makedirs_before_any_export_witness :
    (["out", "maps"] : List String) ≠ []
    ∧ ((scriptEvents "out" sampleProject).head?
          = some (Event.mkdir "out")
      ∧ (∀ (n : Nat) (p : String),
          (scriptEvents "out" sampleProject)[n]?
            = some (Event.exportImage p) →
          ∃ m : Nat, m < n ∧ (scriptEvents "out" sampleProject)[m]?
            = some (Event.mkdir "out"))
      ∧ (∃ st', makedirs true [["out"]] ["out", "maps"] = Except.ok st'
          ∧ ["out", "maps"] ∈ st'
          ∧ ∀ p ∈ (["out", "maps"] : List String).inits,
              p ≠ [] → p ∈ st')
      ∧ ∀ st2 : List (List String),
          (makedirs true st2 ["out", "maps"]).isOk = true) :=
  ⟨by decide,
   makedirs_before_any_export "out" sampleProject [["out"]] ["out", "maps"]
     (by decide)⟩

end QgisToIllustrator
